import Mathlib

/-!
# Verification of the Bollinger-band engine

Shallow embedding of `src/client/src/lib/indicators/bollinger.ts` together
with the record types of `src/client/src/lib/types.ts`.

Modelling conventions:
* JS numbers are `ℝ`.  A JS number that may be `NaN` is `Option ℝ`, with
  `none` standing for `NaN`.  Signed zeros are identified with `0` (JS
  `-0 == 0`, `isNaN (-0) = false`), and no infinity arises on any reachable
  path: the only divisions are by `period`, and whenever `period = 0` the
  dividend is an empty-loop sum, hence `0`, and JS `0/0` is `NaN`.
* A slot of the final, offset-shifted series is `Option (Option ℝ)`:
  the outer `none` is the JS `null` written by `applyOffset`, `some none`
  is a `NaN` that flowed through, and `some (some x)` a finite value.
* JS array reads out of range yield `undefined`; `jsGet` returns `none`
  for them (`isNaN undefined = true`, so they join the `NaN` bucket
  wherever the source feeds them into arithmetic or `isNaN`).
-/

noncomputable section

/-- `OHLCV` record from `types.ts`. -/
structure OHLCV where
  timestamp : String
  «open» : ℝ
  high : ℝ
  low : ℝ
  close : ℝ
  volume : ℝ

/-- The computational fields of `BollingerBandsSettings` from `types.ts`.
The style fields (colors, widths, visibility, fill opacity) and `maType`
are never read by `computeBollingerBands` and are omitted. -/
structure BollingerBandsSettings where
  length : ℤ
  source : String
  stddev : ℝ
  offset : ℤ

/-- `BollingerBandsResult` from `types.ts`.  The TS annotation is
`number | null`; at runtime the number may be `NaN`, hence the nested
option (outer `none` = `null`, `some none` = `NaN`). -/
structure BollingerBandsResult where
  timestamp : String
  basis : Option (Option ℝ)
  upper : Option (Option ℝ)
  lower : Option (Option ℝ)

/-- JS array read `l[j]` with an integer index: `undefined` (here `none`)
when the index is out of range. -/
def jsGet {α : Type} (l : List α) (j : ℤ) : Option α :=
  if 0 ≤ j then l.get? j.toNat else none

/-- A JS `sum += x` loop over possibly-`NaN` addends: `NaN` absorbs. -/
def optSum : List (Option ℝ) → Option ℝ
  | [] => some 0
  | x :: xs => x.bind fun a => (optSum xs).map fun s => a + s

/-- The index range of the inner loop `for (j = i - period + 1; j <= i; j++)`:
empty when `period ≤ 0`, else the `period` integers ending at `i`. -/
def windowIdx (i : ℕ) (period : ℤ) : List ℤ :=
  (List.range period.toNat).map fun (k : ℕ) => (i : ℤ) - period + 1 + (k : ℤ)

/-- `calculateSMA` from `bollinger.ts` (lines 6–22): `NaN` before index
`period - 1`, otherwise the window sum divided by `period`.  When
`period = 0` the loop is empty, so the division is JS `0/0 = NaN`. -/
def calculateSMA (values : List ℝ) (period : ℤ) : List (Option ℝ) :=
  (List.range values.length).map fun (i : ℕ) =>
    if (i : ℤ) < period - 1 then none
    else
      (optSum ((windowIdx i period).map (jsGet values))).bind fun sum =>
        if period = 0 then none else some (sum / (period : ℝ))

/-- JS `Math.sqrt`: `NaN` on negative input (with `-0` identified with `0`,
`Math.sqrt (-0) = -0` is covered by `Real.sqrt 0 = 0`). -/
def jsSqrt (x : ℝ) : Option ℝ :=
  if x < 0 then none else some (Real.sqrt x)

/-- `calculateStandardDeviation` from `bollinger.ts` (lines 27–48): `NaN`
before index `period - 1` or when `smaValues[i]` is `NaN` (or an
out-of-range `undefined`), otherwise
`Math.sqrt (variance / period)` for the window variance about
`smaValues[i]`.  When `period = 0` the variance loop is empty, so the
division is JS `0/0 = NaN` and the square root of it is `NaN`. -/
def calculateStandardDeviation (values : List ℝ) (period : ℤ)
    (smaValues : List (Option ℝ)) : List (Option ℝ) :=
  (List.range values.length).map fun (i : ℕ) =>
    if (i : ℤ) < period - 1 then none
    else
      ((smaValues.get? i).join : Option ℝ).bind fun mean =>
        (optSum ((windowIdx i period).map fun j =>
            (jsGet values j).map fun v => (v - mean) ^ 2)).bind fun variance =>
          if period = 0 then none else jsSqrt (variance / (period : ℝ))

/-- The per-candle projection of `getSourceValues` (`bollinger.ts` 53–74):
the `switch` on the selector string, defaulting to `close`. -/
def sourceValue (candle : OHLCV) (source : String) : ℝ :=
  match source with
  | "open" => candle.«open»
  | "high" => candle.high
  | "low" => candle.low
  | "close" => candle.close
  | "hl2" => (candle.high + candle.low) / 2
  | "hlc3" => (candle.high + candle.low + candle.close) / 3
  | "ohlc4" => (candle.«open» + candle.high + candle.low + candle.close) / 4
  | _ => candle.close

/-- `getSourceValues` from `bollinger.ts` (lines 53–74). -/
def getSourceValues (data : List OHLCV) (source : String) : List ℝ :=
  data.map fun candle => sourceValue candle source

/-- `applyOffset` from `bollinger.ts` (lines 79–94): the zero offset
returns the series unchanged (embedded by `map some`); otherwise slot `i`
holds `data[i - offset]` when that index is in range and `null` (`none`)
when it is not. -/
def applyOffset {α : Type} (data : List α) (offset : ℤ) : List (Option α) :=
  if offset = 0 then data.map some
  else (List.range data.length).map fun (i : ℕ) => jsGet data ((i : ℤ) - offset)

/-- The `basisValues` binding of `computeBollingerBands`
(`bollinger.ts` line 118). -/
def basisSeries (data : List OHLCV) (settings : BollingerBandsSettings) :
    List (Option ℝ) :=
  calculateSMA (getSourceValues data settings.source) settings.length

/-- The `stdDevValues` binding of `computeBollingerBands`
(`bollinger.ts` line 121). -/
def stdDevSeries (data : List OHLCV) (settings : BollingerBandsSettings) :
    List (Option ℝ) :=
  calculateStandardDeviation (getSourceValues data settings.source)
    settings.length (basisSeries data settings)

/-- The `upperValues` binding of `computeBollingerBands`
(`bollinger.ts` lines 124–126): `basisValues.map` with index, `NaN` when
either `basis` or `stdDevValues[i]` is `NaN`. -/
def upperSeries (data : List OHLCV) (settings : BollingerBandsSettings) :
    List (Option ℝ) :=
  (List.range (basisSeries data settings).length).map fun (i : ℕ) =>
    ((basisSeries data settings).get? i).join.bind fun basis =>
      ((stdDevSeries data settings).get? i).join.map fun s =>
        basis + settings.stddev * s

/-- The `lowerValues` binding of `computeBollingerBands`
(`bollinger.ts` lines 128–130). -/
def lowerSeries (data : List OHLCV) (settings : BollingerBandsSettings) :
    List (Option ℝ) :=
  (List.range (basisSeries data settings).length).map fun (i : ℕ) =>
    ((basisSeries data settings).get? i).join.bind fun basis =>
      ((stdDevSeries data settings).get? i).join.map fun s =>
        basis - settings.stddev * s

/-- `computeBollingerBands` from `bollinger.ts` (lines 106–146); the `let`
bindings of the source are the series definitions above. -/
def computeBollingerBands (data : List OHLCV)
    (settings : BollingerBandsSettings) : List BollingerBandsResult :=
  if data.length = 0 then []
  else
    data.enum.map fun ic =>
      { timestamp := ic.2.timestamp
        basis := ((applyOffset (basisSeries data settings)
            settings.offset).get? ic.1).getD none
        upper := ((applyOffset (upperSeries data settings)
            settings.offset).get? ic.1).getD none
        lower := ((applyOffset (lowerSeries data settings)
            settings.offset).get? ic.1).getD none }

/-! ## Basic lemmas about the embedding -/

theorem get?_range_map {α : Type} (f : ℕ → α) (n i : ℕ) :
    ((List.range n).map f).get? i = if i < n then some (f i) else none := by
  rcases Nat.lt_or_ge i n with h | h
  · rw [List.get?_map, List.get?_range h, if_pos h]; rfl
  · rw [if_neg (Nat.not_lt.mpr h), List.get?_map,
      List.get?_eq_none.mpr (by simpa using h)]; rfl

theorem optSum_map_some (l : List ℝ) : optSum (l.map some) = some l.sum := by
  induction l with
  | nil => simp [optSum]
  | cons a l ih => simp [optSum, ih]

theorem windowIdx_length (i : ℕ) (period : ℤ) :
    (windowIdx i period).length = period.toNat := by
  rw [windowIdx, List.length_map, List.length_range]

theorem mem_windowIdx {i : ℕ} {period j : ℤ} :
    j ∈ windowIdx i period ↔
      ∃ k : ℕ, k < period.toNat ∧ j = (i : ℤ) - period + 1 + k := by
  simp only [windowIdx, List.mem_map, List.mem_range]
  constructor
  · rintro ⟨k, hk, h⟩; exact ⟨k, hk, h.symm⟩
  · rintro ⟨k, hk, h⟩; exact ⟨k, hk, h.symm⟩

theorem mem_windowIdx_bounds {i : ℕ} {period j : ℤ}
    (hp : 1 ≤ period) (hi : period - 1 ≤ (i : ℤ))
    (hj : j ∈ windowIdx i period) : 0 ≤ j ∧ j ≤ (i : ℤ) := by
  rcases mem_windowIdx.mp hj with ⟨k, hk, rfl⟩
  omega

theorem jsGet_eq_of_bounds {α : Type} {l : List α} {j : ℤ}
    (h0 : 0 ≤ j) (hl : j < (l.length : ℤ)) (d : α) :
    jsGet l j = some (l.getD j.toNat d) := by
  have hlt : j.toNat < l.length := by omega
  rw [jsGet, if_pos h0, List.getD_eq_get _ _ hlt, List.get?_eq_get hlt]

theorem windowSum_eq {values : List ℝ} {period : ℤ} {i : ℕ}
    (hp : 1 ≤ period) (hi : period - 1 ≤ (i : ℤ)) (hlen : i < values.length) :
    optSum ((windowIdx i period).map (jsGet values)) =
      some (((windowIdx i period).map fun j => values.getD j.toNat 0).sum) := by
  have hmap : (windowIdx i period).map (jsGet values) =
      ((windowIdx i period).map fun j => values.getD j.toNat 0).map some := by
    rw [List.map_map]
    refine List.map_congr_left fun j hj => ?_
    rcases mem_windowIdx_bounds hp hi hj with ⟨h0, hle⟩
    rw [jsGet_eq_of_bounds h0 (by omega) 0]; rfl
  rw [hmap, optSum_map_some]

theorem windowSqSum_eq {values : List ℝ} {period : ℤ} {i : ℕ} (mean : ℝ)
    (hp : 1 ≤ period) (hi : period - 1 ≤ (i : ℤ)) (hlen : i < values.length) :
    optSum ((windowIdx i period).map fun j =>
        (jsGet values j).map fun v => (v - mean) ^ 2) =
      some (((windowIdx i period).map fun j =>
        (values.getD j.toNat 0 - mean) ^ 2).sum) := by
  have hmap : ((windowIdx i period).map fun j =>
        (jsGet values j).map fun v => (v - mean) ^ 2) =
      ((windowIdx i period).map fun j =>
        (values.getD j.toNat 0 - mean) ^ 2).map some := by
    rw [List.map_map]
    refine List.map_congr_left fun j hj => ?_
    rcases mem_windowIdx_bounds hp hi hj with ⟨h0, hle⟩
    rw [jsGet_eq_of_bounds h0 (by omega) 0]; rfl
  rw [hmap, optSum_map_some]

/-! ## Characterisation of the rolling statistics -/

theorem calculateSMA_length (values : List ℝ) (period : ℤ) :
    (calculateSMA values period).length = values.length := by
  rw [calculateSMA, List.length_map, List.length_range]

theorem calculateStandardDeviation_length (values : List ℝ) (period : ℤ)
    (smaValues : List (Option ℝ)) :
    (calculateStandardDeviation values period smaValues).length =
      values.length := by
  rw [calculateStandardDeviation, List.length_map, List.length_range]

theorem getSourceValues_length (data : List OHLCV) (source : String) :
    (getSourceValues data source).length = data.length := by
  rw [getSourceValues, List.length_map]

theorem applyOffset_length {α : Type} (data : List α) (offset : ℤ) :
    (applyOffset data offset).length = data.length := by
  rw [applyOffset]
  by_cases h : offset = 0
  · rw [if_pos h, List.length_map]
  · rw [if_neg h, List.length_map, List.length_range]

theorem calculateSMA_get_warmup {values : List ℝ} {period : ℤ} {i : ℕ}
    (hi : (i : ℤ) < period - 1) (hlen : i < values.length) :
    (calculateSMA values period).get? i = some none := by
  rw [calculateSMA, get?_range_map, if_pos hlen, if_pos hi]

theorem calculateSMA_get_defined {values : List ℝ} {period : ℤ} {i : ℕ}
    (hp : 1 ≤ period) (hi : period - 1 ≤ (i : ℤ)) (hlen : i < values.length) :
    (calculateSMA values period).get? i =
      some (some
        (((windowIdx i period).map fun j => values.getD j.toNat 0).sum /
          (period : ℝ))) := by
  rw [calculateSMA, get?_range_map, if_pos hlen, if_neg (not_lt.mpr hi),
    windowSum_eq hp hi hlen]
  simp only [Option.some_bind']
  rw [if_neg (by omega : ¬ period = 0)]

theorem calculateSMA_get_zero {values : List ℝ} {i : ℕ}
    (hlen : i < values.length) :
    (calculateSMA values 0).get? i = some none := by
  rw [calculateSMA, get?_range_map, if_pos hlen,
    if_neg (by omega : ¬ (i : ℤ) < 0 - 1)]
  rfl

theorem calculateSMA_get_neg {values : List ℝ} {period : ℤ} {i : ℕ}
    (hp : period < 0) (hlen : i < values.length) :
    (calculateSMA values period).get? i = some (some 0) := by
  rw [calculateSMA, get?_range_map, if_pos hlen,
    if_neg (by omega : ¬ (i : ℤ) < period - 1)]
  have h0 : period.toNat = 0 := by omega
  simp [windowIdx, h0, optSum, hp.ne]

theorem calculateStandardDeviation_get_warmup {values : List ℝ} {period : ℤ}
    {i : ℕ} (smaValues : List (Option ℝ))
    (hi : (i : ℤ) < period - 1) (hlen : i < values.length) :
    (calculateStandardDeviation values period smaValues).get? i = some none := by
  rw [calculateStandardDeviation, get?_range_map, if_pos hlen, if_pos hi]

theorem calculateStandardDeviation_get_nomean {values : List ℝ} {period : ℤ}
    {i : ℕ} {smaValues : List (Option ℝ)}
    (hi : ¬ (i : ℤ) < period - 1) (hlen : i < values.length)
    (hmean : (smaValues.get? i).join = none) :
    (calculateStandardDeviation values period smaValues).get? i = some none := by
  rw [calculateStandardDeviation, get?_range_map, if_pos hlen, if_neg hi, hmean]
  rfl

theorem calculateStandardDeviation_get_defined {values : List ℝ} {period : ℤ}
    {i : ℕ} {smaValues : List (Option ℝ)} {mean : ℝ}
    (hp : 1 ≤ period) (hi : period - 1 ≤ (i : ℤ)) (hlen : i < values.length)
    (hmean : (smaValues.get? i).join = some mean) :
    (calculateStandardDeviation values period smaValues).get? i =
      some (some (Real.sqrt
        (((windowIdx i period).map fun j =>
            (values.getD j.toNat 0 - mean) ^ 2).sum / (period : ℝ)))) := by
  rw [calculateStandardDeviation, get?_range_map, if_pos hlen,
    if_neg (not_lt.mpr hi), hmean]
  simp only [Option.some_bind']
  rw [windowSqSum_eq mean hp hi hlen]
  simp only [Option.some_bind']
  have hvar : (0 : ℝ) ≤ ((windowIdx i period).map fun j =>
      (values.getD j.toNat 0 - mean) ^ 2).sum := by
    refine List.sum_nonneg fun x hx => ?_
    rcases List.mem_map.mp hx with ⟨j, _, rfl⟩
    exact sq_nonneg _
  have hper : (0 : ℝ) ≤ (period : ℝ) := by
    have : (0 : ℤ) ≤ period := by omega
    exact_mod_cast this
  rw [if_neg (by omega : ¬ period = 0), jsSqrt,
    if_neg (not_lt.mpr (div_nonneg hvar hper))]

theorem calculateStandardDeviation_get_neg {values : List ℝ} {period : ℤ}
    {i : ℕ} {smaValues : List (Option ℝ)} {mean : ℝ}
    (hp : period < 0) (hlen : i < values.length)
    (hmean : (smaValues.get? i).join = some mean) :
    (calculateStandardDeviation values period smaValues).get? i =
      some (some 0) := by
  rw [calculateStandardDeviation, get?_range_map, if_pos hlen,
    if_neg (by omega : ¬ (i : ℤ) < period - 1), hmean]
  have h0 : period.toNat = 0 := by omega
  simp [windowIdx, h0, optSum, hp.ne, jsSqrt]

/-! ## Characterisation of the derived band series -/

theorem basisSeries_length (data : List OHLCV)
    (settings : BollingerBandsSettings) :
    (basisSeries data settings).length = data.length := by
  rw [basisSeries, calculateSMA_length, getSourceValues_length]

theorem stdDevSeries_length (data : List OHLCV)
    (settings : BollingerBandsSettings) :
    (stdDevSeries data settings).length = data.length := by
  rw [stdDevSeries, calculateStandardDeviation_length, getSourceValues_length]

theorem upperSeries_length (data : List OHLCV)
    (settings : BollingerBandsSettings) :
    (upperSeries data settings).length = data.length := by
  rw [upperSeries, List.length_map, List.length_range, basisSeries_length]

theorem lowerSeries_length (data : List OHLCV)
    (settings : BollingerBandsSettings) :
    (lowerSeries data settings).length = data.length := by
  rw [lowerSeries, List.length_map, List.length_range, basisSeries_length]

theorem upperSeries_get {data : List OHLCV} {settings : BollingerBandsSettings}
    {i : ℕ} (hi : i < data.length) :
    (upperSeries data settings).get? i = some
      (((basisSeries data settings).get? i).join.bind fun basis =>
        ((stdDevSeries data settings).get? i).join.map fun s =>
          basis + settings.stddev * s) := by
  rw [upperSeries, get?_range_map,
    if_pos (by rw [basisSeries_length]; exact hi)]

theorem lowerSeries_get {data : List OHLCV} {settings : BollingerBandsSettings}
    {i : ℕ} (hi : i < data.length) :
    (lowerSeries data settings).get? i = some
      (((basisSeries data settings).get? i).join.bind fun basis =>
        ((stdDevSeries data settings).get? i).join.map fun s =>
          basis - settings.stddev * s) := by
  rw [lowerSeries, get?_range_map,
    if_pos (by rw [basisSeries_length]; exact hi)]

theorem applyOffset_get {α : Type} (data : List α) (k : ℤ) (i : ℕ)
    (hi : i < data.length) :
    (applyOffset data k).get? i = some (jsGet data ((i : ℤ) - k)) := by
  rw [applyOffset]
  by_cases h : k = 0
  · subst h
    have h2 : ((i : ℤ) - 0).toNat = i := by omega
    rw [if_pos rfl, List.get?_map, List.get?_eq_get hi, jsGet,
      if_pos (by omega : (0 : ℤ) ≤ (i : ℤ) - 0), h2, List.get?_eq_get hi]
    rfl
  · rw [if_neg h, get?_range_map, if_pos hi]

theorem computeBollingerBands_length (data : List OHLCV)
    (settings : BollingerBandsSettings) :
    (computeBollingerBands data settings).length = data.length := by
  rw [computeBollingerBands]
  by_cases h : data.length = 0
  · rw [if_pos h, h]; rfl
  · rw [if_neg h, List.length_map, List.enum_length]

theorem computeBollingerBands_get {data : List OHLCV}
    (settings : BollingerBandsSettings) {i : ℕ} {candle : OHLCV}
    (hc : data.get? i = some candle) :
    (computeBollingerBands data settings).get? i = some
      { timestamp := candle.timestamp
        basis := ((applyOffset (basisSeries data settings)
            settings.offset).get? i).getD none
        upper := ((applyOffset (upperSeries data settings)
            settings.offset).get? i).getD none
        lower := ((applyOffset (lowerSeries data settings)
            settings.offset).get? i).getD none } := by
  obtain ⟨hi, -⟩ := List.get?_eq_some.mp hc
  rw [computeBollingerBands, if_neg (by omega), List.get?_map,
    List.get?_enum, hc]
  rfl

/-- Whenever the basis (SMA) series holds a real value at an index, the
standard-deviation series computed from it holds one too. -/
theorem stdDevSeries_defined_of_basis {data : List OHLCV}
    {settings : BollingerBandsSettings} {i : ℕ} {b : ℝ}
    (hb : (basisSeries data settings).get? i = some (some b)) :
    ∃ s, (stdDevSeries data settings).get? i = some (some s) := by
  have hi : i < data.length := by
    obtain ⟨hlt, -⟩ := List.get?_eq_some.mp hb
    rwa [basisSeries_length] at hlt
  have hlen : i < (getSourceValues data settings.source).length := by
    rwa [getSourceValues_length]
  have hmean : ((basisSeries data settings).get? i).join = some b := by
    rw [hb]; rfl
  rcases lt_trichotomy settings.length 0 with hneg | hzero | hpos
  · exact ⟨0, calculateStandardDeviation_get_neg hneg hlen hmean⟩
  · rw [basisSeries, hzero, calculateSMA_get_zero hlen] at hb
    exact absurd (Option.some.inj hb) (by simp)
  · have hp : 1 ≤ settings.length := hpos
    by_cases hwarm : (i : ℤ) < settings.length - 1
    · rw [basisSeries, calculateSMA_get_warmup hwarm hlen] at hb
      exact absurd (Option.some.inj hb) (by simp)
    · exact ⟨_, calculateStandardDeviation_get_defined hp
        (not_lt.mp hwarm) hlen hmean⟩

/-! ## Claims -/

theorem windowIdx_map_sum (i : ℕ) (period : ℤ)
    (hi : period - 1 ≤ (i : ℤ)) (f : ℕ → ℝ) :
    ((windowIdx i period).map fun j => f j.toNat).sum =
      ((List.range period.toNat).map fun k =>
        f (i + 1 - period.toNat + k)).sum := by
  rw [windowIdx, List.map_map]
  refine congrArg List.sum (List.map_congr_left fun k hk => ?_)
  have hk' := List.mem_range.mp hk
  have : ((i : ℤ) - period + 1 + (k : ℤ)).toNat =
      i + 1 - period.toNat + k := by omega
  simp only [Function.comp_apply, this]

theorem sma_12345 :
    (calculateSMA [1, 2, 3, 4, 5] 5).get? 4 = some (some 3) := by
  rw [calculateSMA_get_defined (by norm_num) (by norm_num) (by norm_num)]
  have hidx : windowIdx 4 5 = [0, 1, 2, 3, 4] := by decide
  rw [hidx]
  norm_num [List.getD, show Int.toNat 2 = 2 from rfl,
    show Int.toNat 3 = 3 from rfl, show Int.toNat 4 = 4 from rfl]

/-- C2: for every value sequence, window `period ≥ 1` and index
`i ≥ period - 1` in range, whose rolling mean is therefore defined, the
dispersion equals the population standard deviation
`sqrt((1/period) * Σ (values[j] - mean)^2)` over the window ending at `i`
(divisor `period`, not `period - 1`); in particular for `[1,2,3,4,5]` with
window `5` it is `sqrt 2`, which differs from the sample value
`sqrt 2.5`. -/
theorem C2_population_stddev (values : List ℝ) (period : ℤ) (i : ℕ)
    (mean : ℝ) (hp : 1 ≤ period) (hi : period - 1 ≤ (i : ℤ))
    (hlen : i < values.length)
    (hmean : (calculateSMA values period).get? i = some (some mean)) :
    (calculateStandardDeviation values period
        (calculateSMA values period)).get? i =
      some (some (Real.sqrt ((1 / (period : ℝ)) *
        ((List.range period.toNat).map fun k =>
          (values.getD (i + 1 - period.toNat + k) 0 - mean) ^ 2).sum))) ∧
    (calculateStandardDeviation [1, 2, 3, 4, 5] 5
        (calculateSMA [1, 2, 3, 4, 5] 5)).get? 4 =
      some (some (Real.sqrt 2)) ∧
    Real.sqrt 2 ≠ Real.sqrt 2.5 := by
  refine ⟨?_, ?_, ?_⟩
  · rw [calculateStandardDeviation_get_defined hp hi hlen
      (by rw [hmean]; rfl)]
    rw [windowIdx_map_sum i period hi fun n => (values.getD n 0 - mean) ^ 2]
    rw [div_eq_mul_inv, one_div, mul_comm]
  · rw [calculateStandardDeviation_get_defined (by norm_num) (by norm_num)
      (by norm_num) (by rw [sma_12345]; rfl)]
    have hidx : windowIdx 4 5 = [0, 1, 2, 3, 4] := by decide
    rw [hidx]
    norm_num [List.getD, show Int.toNat 2 = 2 from rfl,
      show Int.toNat 3 = 3 from rfl, show Int.toNat 4 = 4 from rfl]
  · intro h
    have h2 := (Real.sqrt_inj (by norm_num) (by norm_num)).mp h
    norm_num at h2

theorem C2_population_stddev_witness :
    (calculateStandardDeviation [1, 2, 3, 4, 5] 5
        (calculateSMA [1, 2, 3, 4, 5] 5)).get? 4 =
      some (some (Real.sqrt 2)) :=
  (C2_population_stddev [1, 2, 3, 4, 5] 5 4 3 (by norm_num) (by norm_num)
    (by norm_num) sma_12345).2.1

/-- C3: for every series of length `N` and integer offset `k`, the shifted
series satisfies `shifted[i] = unshifted[i-k]` for every index with
`0 ≤ i-k < N`, is `null` (`none`) at every other index, and offset `0` is
the identity transform (`map some` being the embedding of an unshifted
slot). -/
theorem C3_offset_shift_law {α : Type} (data : List α) (k : ℤ) (i : ℕ)
    (hi : i < data.length) :
    ((0 ≤ (i : ℤ) - k ∧ (i : ℤ) - k < (data.length : ℤ) →
        (applyOffset data k).get? i = some (data.get? ((i : ℤ) - k).toNat)) ∧
      (¬(0 ≤ (i : ℤ) - k ∧ (i : ℤ) - k < (data.length : ℤ)) →
        (applyOffset data k).get? i = some none)) ∧
    applyOffset data 0 = data.map some := by
  refine ⟨⟨fun h => ?_, fun h => ?_⟩, ?_⟩
  · rw [applyOffset_get data k i hi, jsGet, if_pos h.1]
  · rw [applyOffset_get data k i hi, jsGet]
    by_cases h0 : 0 ≤ (i : ℤ) - k
    · rw [if_pos h0, List.get?_eq_none.mpr (by omega)]
    · rw [if_neg h0]
  · rw [applyOffset, if_pos rfl]

theorem C3_offset_shift_law_witness :
    1 < [10, 20].length ∧
    (((0 ≤ (1 : ℤ) - 1 ∧ (1 : ℤ) - 1 < ([10, 20].length : ℤ) →
        (applyOffset [10, 20] 1).get? 1 =
          some ([10, 20].get? ((1 : ℤ) - 1).toNat)) ∧
      (¬(0 ≤ (1 : ℤ) - 1 ∧ (1 : ℤ) - 1 < ([10, 20].length : ℤ)) →
        (applyOffset [10, 20] 1).get? 1 = some none)) ∧
     applyOffset [10, 20] 0 = [10, 20].map some) :=
  ⟨by decide, C3_offset_shift_law [10, 20] 1 1 (by decide)⟩

/-- C8: the source projection returns `open`/`high`/`low`/`close` and the
three derived averages for the seven known selector strings, and falls
back to `close` for every other selector string. -/
theorem C8_source_selector (data : List OHLCV) :
    getSourceValues data "open" = data.map (fun c => c.«open») ∧
    getSourceValues data "high" = data.map (fun c => c.high) ∧
    getSourceValues data "low" = data.map (fun c => c.low) ∧
    getSourceValues data "close" = data.map (fun c => c.close) ∧
    getSourceValues data "hl2" = data.map (fun c => (c.high + c.low) / 2) ∧
    getSourceValues data "hlc3" =
      data.map (fun c => (c.high + c.low + c.close) / 3) ∧
    getSourceValues data "ohlc4" =
      data.map (fun c => (c.«open» + c.high + c.low + c.close) / 4) ∧
    ∀ s : String,
      s ∉ ["open", "high", "low", "close", "hl2", "hlc3", "ohlc4"] →
      getSourceValues data s = data.map (fun c => c.close) := by
  refine ⟨rfl, rfl, rfl, rfl, rfl, rfl, rfl, fun s hs => ?_⟩
  simp only [List.mem_cons, List.not_mem_nil, or_false, not_or] at hs
  rw [getSourceValues]
  refine List.map_congr_left fun c _ => ?_
  obtain ⟨h1, h2, h3, h4, h5, h6, h7⟩ := hs
  unfold sourceValue
  split
  · exact absurd rfl h1
  · exact absurd rfl h2
  · exact absurd rfl h3
  · rfl
  · exact absurd rfl h5
  · exact absurd rfl h6
  · exact absurd rfl h7
  · rfl

theorem C8_source_selector_witness :
    let b : OHLCV := ⟨"t", 10, 12, 8, 11, 1⟩
    getSourceValues [b] "hl2" = [b].map (fun c => (c.high + c.low) / 2) ∧
    "volume" ∉ ["open", "high", "low", "close", "hl2", "hlc3", "ohlc4"] ∧
    getSourceValues [b] "volume" = [b].map (fun c => c.close) :=
  ⟨(C8_source_selector _).2.2.2.2.1, by decide,
    (C8_source_selector _).2.2.2.2.2.2.2 "volume" (by decide)⟩

theorem applyOffset_zero_slot {α : Type} (X : List α) (i : ℕ)
    (hi : i < X.length) :
    ((applyOffset X 0).get? i).getD none = some (X.get ⟨i, hi⟩) := by
  rw [applyOffset_get X 0 i hi, Option.getD_some, jsGet,
    if_pos (by omega : (0 : ℤ) ≤ (i : ℤ) - 0)]
  have h2 : ((i : ℤ) - 0).toNat = i := by omega
  rw [h2, List.get?_eq_get hi]

theorem slot_of_get? {α : Type} {X : List α} {i : ℕ} {x : α}
    (hx : X.get? i = some x) :
    ((applyOffset X 0).get? i).getD none = some x := by
  obtain ⟨hi, -⟩ := List.get?_eq_some.mp hx
  rw [applyOffset_zero_slot X i hi]
  rw [List.get?_eq_get hi] at hx
  exact congrArg some (Option.some.inj hx)

theorem jsGet_none_iff {α : Type} {l : List α} {j : ℤ} :
    jsGet l j = none ↔ (j < 0 ∨ (l.length : ℤ) ≤ j) := by
  rw [jsGet]
  by_cases h : 0 ≤ j
  · rw [if_pos h, List.get?_eq_none]
    omega
  · rw [if_neg h]
    exact iff_of_true rfl (Or.inl (by omega))

theorem warmup_point {data : List OHLCV} {settings : BollingerBandsSettings}
    {i : ℕ} {candle : OHLCV} (hc : data.get? i = some candle)
    (hwarm : (i : ℤ) < settings.length - 1) (hoff : settings.offset = 0) :
    (computeBollingerBands data settings).get? i =
      some ⟨candle.timestamp, some none, some none, some none⟩ := by
  obtain ⟨hi, -⟩ := List.get?_eq_some.mp hc
  have hlen : i < (getSourceValues data settings.source).length := by
    rwa [getSourceValues_length]
  have hb : (basisSeries data settings).get? i = some none := by
    rw [basisSeries]; exact calculateSMA_get_warmup hwarm hlen
  have hu : (upperSeries data settings).get? i = some none := by
    rw [upperSeries_get hi, hb]; rfl
  have hl : (lowerSeries data settings).get? i = some none := by
    rw [lowerSeries_get hi, hb]; rfl
  rw [computeBollingerBands_get settings hc, hoff,
    slot_of_get? hb, slot_of_get? hu, slot_of_get? hl]

theorem zero_point {data : List OHLCV} {settings : BollingerBandsSettings}
    {i : ℕ} {candle : OHLCV} (hc : data.get? i = some candle)
    (h0 : settings.length = 0) (hoff : settings.offset = 0) :
    (computeBollingerBands data settings).get? i =
      some ⟨candle.timestamp, some none, some none, some none⟩ := by
  obtain ⟨hi, -⟩ := List.get?_eq_some.mp hc
  have hlen : i < (getSourceValues data settings.source).length := by
    rwa [getSourceValues_length]
  have hb : (basisSeries data settings).get? i = some none := by
    rw [basisSeries, h0]; exact calculateSMA_get_zero hlen
  have hu : (upperSeries data settings).get? i = some none := by
    rw [upperSeries_get hi, hb]; rfl
  have hl : (lowerSeries data settings).get? i = some none := by
    rw [lowerSeries_get hi, hb]; rfl
  rw [computeBollingerBands_get settings hc, hoff,
    slot_of_get? hb, slot_of_get? hu, slot_of_get? hl]

theorem neg_point {data : List OHLCV} {settings : BollingerBandsSettings}
    {i : ℕ} {candle : OHLCV} (hc : data.get? i = some candle)
    (hneg : settings.length < 0) (hoff : settings.offset = 0) :
    (computeBollingerBands data settings).get? i =
      some ⟨candle.timestamp, some (some 0), some (some 0),
        some (some 0)⟩ := by
  obtain ⟨hi, -⟩ := List.get?_eq_some.mp hc
  have hlen : i < (getSourceValues data settings.source).length := by
    rwa [getSourceValues_length]
  have hb : (basisSeries data settings).get? i = some (some 0) := by
    rw [basisSeries]; exact calculateSMA_get_neg hneg hlen
  have hsd : (stdDevSeries data settings).get? i = some (some 0) := by
    rw [stdDevSeries]
    exact calculateStandardDeviation_get_neg hneg hlen (by rw [hb]; rfl)
  have hu : (upperSeries data settings).get? i = some (some 0) := by
    rw [upperSeries_get hi, hb, hsd]
    show some (some ((0 : ℝ) + settings.stddev * 0)) = some (some 0)
    norm_num
  have hl : (lowerSeries data settings).get? i = some (some 0) := by
    rw [lowerSeries_get hi, hb, hsd]
    show some (some ((0 : ℝ) - settings.stddev * 0)) = some (some 0)
    norm_num
  rw [computeBollingerBands_get settings hc, hoff,
    slot_of_get? hb, slot_of_get? hu, slot_of_get? hl]

/-- C4: with window `L ≥ 1` and offset `0`, the output satisfies the
warm-up boundary: `basis`, `upper`, `lower` carry no real value before
index `L-1` (they are the `NaN` slot `some none`), all three carry a real
value from index `L-1` on, and there the basis is the arithmetic mean of
the projected source values over the window ending at `i`. -/
theorem C4_window_warmup (data : List OHLCV)
    (settings : BollingerBandsSettings) (hp : 1 ≤ settings.length)
    (hoff : settings.offset = 0) (i : ℕ) (p : BollingerBandsResult)
    (hpt : (computeBollingerBands data settings).get? i = some p) :
    ((i : ℤ) < settings.length - 1 →
      p.basis = some none ∧ p.upper = some none ∧ p.lower = some none) ∧
    (settings.length - 1 ≤ (i : ℤ) →
      p.basis = some (some
        (((List.range settings.length.toNat).map fun k =>
          (getSourceValues data settings.source).getD
            (i + 1 - settings.length.toNat + k) 0).sum /
          (settings.length : ℝ))) ∧
      (∃ u, p.upper = some (some u)) ∧ ∃ l, p.lower = some (some l)) := by
  have hi : i < data.length := by
    obtain ⟨h, -⟩ := List.get?_eq_some.mp hpt
    rwa [computeBollingerBands_length] at h
  have hlen : i < (getSourceValues data settings.source).length := by
    rwa [getSourceValues_length]
  obtain ⟨c, hc⟩ : ∃ c, data.get? i = some c := ⟨_, List.get?_eq_get hi⟩
  have hrec := computeBollingerBands_get settings hc
  rw [hpt] at hrec
  have hpeq := Option.some.inj hrec
  subst hpeq
  constructor
  · intro hwarm
    have hb : (basisSeries data settings).get? i = some none := by
      rw [basisSeries]; exact calculateSMA_get_warmup hwarm hlen
    have hu : (upperSeries data settings).get? i = some none := by
      rw [upperSeries_get hi, hb]; rfl
    have hl : (lowerSeries data settings).get? i = some none := by
      rw [lowerSeries_get hi, hb]; rfl
    refine ⟨?_, ?_, ?_⟩
    · show ((applyOffset (basisSeries data settings)
          settings.offset).get? i).getD none = some none
      rw [hoff]; exact slot_of_get? hb
    · show ((applyOffset (upperSeries data settings)
          settings.offset).get? i).getD none = some none
      rw [hoff]; exact slot_of_get? hu
    · show ((applyOffset (lowerSeries data settings)
          settings.offset).get? i).getD none = some none
      rw [hoff]; exact slot_of_get? hl
  · intro hdef
    have hb : (basisSeries data settings).get? i = some (some
        (((List.range settings.length.toNat).map fun k =>
          (getSourceValues data settings.source).getD
            (i + 1 - settings.length.toNat + k) 0).sum /
          (settings.length : ℝ))) := by
      rw [basisSeries, calculateSMA_get_defined hp hdef hlen,
        windowIdx_map_sum i settings.length hdef
          fun n => (getSourceValues data settings.source).getD n 0]
    set M : ℝ := ((List.range settings.length.toNat).map fun k =>
        (getSourceValues data settings.source).getD
          (i + 1 - settings.length.toNat + k) 0).sum /
        (settings.length : ℝ) with hM
    obtain ⟨s, hs⟩ := stdDevSeries_defined_of_basis hb
    have hu : (upperSeries data settings).get? i = some (some
        (M + settings.stddev * s)) := by
      rw [upperSeries_get hi, hb, hs]; rfl
    have hl : (lowerSeries data settings).get? i = some (some
        (M - settings.stddev * s)) := by
      rw [lowerSeries_get hi, hb, hs]; rfl
    refine ⟨?_, ⟨M + settings.stddev * s, ?_⟩,
      ⟨M - settings.stddev * s, ?_⟩⟩
    · show ((applyOffset (basisSeries data settings)
          settings.offset).get? i).getD none = _
      rw [hoff]; exact slot_of_get? hb
    · show ((applyOffset (upperSeries data settings)
          settings.offset).get? i).getD none = _
      rw [hoff]; exact slot_of_get? hu
    · show ((applyOffset (lowerSeries data settings)
          settings.offset).get? i).getD none = _
      rw [hoff]; exact slot_of_get? hl

theorem const_window_sum {values : List ℝ} {c : ℝ}
    (hconst : ∀ v ∈ values, v = c) {period : ℤ} {i : ℕ} (f : ℝ → ℝ)
    (hp : 1 ≤ period) (hdef : period - 1 ≤ (i : ℤ))
    (hlen : i < values.length) :
    ((windowIdx i period).map fun j => f (values.getD j.toNat 0)).sum =
      period.toNat • f c := by
  have hpt : ∀ j ∈ windowIdx i period, f (values.getD j.toNat 0) = f c := by
    intro j hj
    rcases mem_windowIdx_bounds hp hdef hj with ⟨h0, hle⟩
    have hjl : j.toNat < values.length := by omega
    rw [List.getD_eq_get _ _ hjl]
    rw [hconst _ (List.get_mem values _ _)]
  rw [List.map_congr_left hpt, List.map_const', List.sum_replicate,
    windowIdx_length]

theorem const_basis {data : List OHLCV} {settings : BollingerBandsSettings}
    {c : ℝ}
    (hconst : ∀ v ∈ getSourceValues data settings.source, v = c)
    (hp : 1 ≤ settings.length) {i : ℕ}
    (hdef : settings.length - 1 ≤ (i : ℤ)) (hi : i < data.length) :
    (basisSeries data settings).get? i = some (some c) := by
  have hlen : i < (getSourceValues data settings.source).length := by
    rwa [getSourceValues_length]
  rw [basisSeries, calculateSMA_get_defined hp hdef hlen]
  rw [const_window_sum hconst (fun x => x) hp hdef hlen]
  have hcast : ((settings.length.toNat : ℝ)) = (settings.length : ℝ) := by
    have h := Int.toNat_of_nonneg (by omega : (0 : ℤ) ≤ settings.length)
    exact_mod_cast congrArg (fun z : ℤ => (z : ℝ)) h
  rw [nsmul_eq_mul, hcast,
    mul_div_cancel_left₀ c (by exact_mod_cast (by omega : settings.length ≠ 0))]

theorem const_stdDev {data : List OHLCV} {settings : BollingerBandsSettings}
    {c : ℝ}
    (hconst : ∀ v ∈ getSourceValues data settings.source, v = c)
    (hp : 1 ≤ settings.length) {i : ℕ}
    (hdef : settings.length - 1 ≤ (i : ℤ)) (hi : i < data.length) :
    (stdDevSeries data settings).get? i = some (some 0) := by
  have hlen : i < (getSourceValues data settings.source).length := by
    rwa [getSourceValues_length]
  have hmean : ((basisSeries data settings).get? i).join = some c := by
    rw [const_basis hconst hp hdef hi]; rfl
  rw [stdDevSeries, calculateStandardDeviation_get_defined hp hdef hlen hmean]
  rw [const_window_sum hconst (fun x => (x - c) ^ 2) hp hdef hlen]
  norm_num

theorem const_point {data : List OHLCV} {settings : BollingerBandsSettings}
    {c : ℝ} {i : ℕ} {candle : OHLCV} (hc : data.get? i = some candle)
    (hconst : ∀ v ∈ getSourceValues data settings.source, v = c)
    (hp : 1 ≤ settings.length) (hdef : settings.length - 1 ≤ (i : ℤ))
    (hoff : settings.offset = 0) :
    (computeBollingerBands data settings).get? i =
      some ⟨candle.timestamp, some (some c), some (some c), some (some c)⟩ := by
  obtain ⟨hi, -⟩ := List.get?_eq_some.mp hc
  have hb := const_basis hconst hp hdef hi
  have hsd := const_stdDev hconst hp hdef hi
  have hu : (upperSeries data settings).get? i = some (some c) := by
    rw [upperSeries_get hi, hb, hsd]
    show some (some (c + settings.stddev * 0)) = some (some c)
    norm_num
  have hl : (lowerSeries data settings).get? i = some (some c) := by
    rw [lowerSeries_get hi, hb, hsd]
    show some (some (c - settings.stddev * 0)) = some (some c)
    norm_num
  rw [computeBollingerBands_get settings hc, hoff,
    slot_of_get? hb, slot_of_get? hu, slot_of_get? hl]

theorem C4_window_warmup_witness :
    (⟨"t1", some none, some none, some none⟩ : BollingerBandsResult).basis
        = some none ∧
    (⟨"t1", some none, some none, some none⟩ : BollingerBandsResult).upper
        = some none ∧
    (⟨"t1", some none, some none, some none⟩ : BollingerBandsResult).lower
        = some none :=
  (C4_window_warmup
    [⟨"t1", 100, 100, 100, 100, 0⟩, ⟨"t2", 100, 100, 100, 100, 0⟩]
    ⟨2, "close", 2, 0⟩ (by norm_num) rfl 0
    ⟨"t1", some none, some none, some none⟩
    (warmup_point (show ([⟨"t1", 100, 100, 100, 100, 0⟩,
        ⟨"t2", 100, 100, 100, 100, 0⟩] : List OHLCV).get? 0 =
      some ⟨"t1", 100, 100, 100, 100, 0⟩ from rfl)
      (by norm_num) rfl)).1 (by norm_num)

/-- C9: for 25 bars whose close is 100, with `length = 20`,
`stddevMultiplier = 2`, `source = close`, `offset = 0`, every output index
from 19 on has `basis = upper = lower = 100` (zero dispersion collapses
the band). -/
theorem C9_constant_prices (data : List OHLCV) (hlen : data.length = 25)
    (hclose : ∀ b ∈ data, b.close = 100) (i : ℕ) (h19 : 19 ≤ i)
    (h25 : i < 25) :
    ∃ p : BollingerBandsResult,
      (computeBollingerBands data ⟨20, "close", 2, 0⟩).get? i = some p ∧
      p.basis = some (some 100) ∧ p.upper = some (some 100) ∧
      p.lower = some (some 100) := by
  have hi : i < data.length := by omega
  obtain ⟨c, hc⟩ : ∃ c, data.get? i = some c := ⟨_, List.get?_eq_get hi⟩
  have hconst : ∀ v ∈ getSourceValues data
      (⟨20, "close", 2, 0⟩ : BollingerBandsSettings).source, v = 100 := by
    intro v hv
    rw [getSourceValues] at hv
    rcases List.mem_map.mp hv with ⟨b, hb, rfl⟩
    exact hclose b hb
  exact ⟨_, const_point hc hconst (by norm_num)
    (show (20 : ℤ) - 1 ≤ (i : ℤ) by omega) rfl, rfl, rfl, rfl⟩

theorem C9_constant_prices_witness :
    (List.replicate 25 (⟨"t", 100, 100, 100, 100, 0⟩ : OHLCV)).length = 25 ∧
    ∃ p : BollingerBandsResult,
      (computeBollingerBands
        (List.replicate 25 (⟨"t", 100, 100, 100, 100, 0⟩ : OHLCV))
        ⟨20, "close", 2, 0⟩).get? 19 = some p ∧
      p.basis = some (some 100) ∧ p.upper = some (some 100) ∧
      p.lower = some (some 100) :=
  ⟨by simp, C9_constant_prices _ (by simp)
    (fun b hb => by rw [List.eq_of_mem_replicate hb]) 19
    (by norm_num) (by norm_num)⟩

/-- C1 (counterexample): with two bars of close `100`, window `2` and
offset `0`, the first output point's `basis` is the `NaN` slot
`some none`, not the `null` slot `none` — a computed `NaN` surfaces to
the caller for the undefined warm-up index, refuting the claim that
undefined values are always represented as `null` and that no `NaN`
appears. -/
theorem C1_nan_counterexample :
    ((computeBollingerBands
        [⟨"t1", 100, 100, 100, 100, 0⟩, ⟨"t2", 100, 100, 100, 100, 0⟩]
        ⟨2, "close", 2, 0⟩).get? 0).map (fun p => p.basis) =
      some (some none) := by
  rw [warmup_point (show ([⟨"t1", 100, 100, 100, 100, 0⟩,
      ⟨"t2", 100, 100, 100, 100, 0⟩] : List OHLCV).get? 0 =
    some ⟨"t1", 100, 100, 100, 100, 0⟩ from rfl) (by norm_num) rfl]
  rfl

/-- C1 (amended): `null` (`none`) appears in `basis`/`upper`/`lower`
exactly at the shifted-out-of-range slots, i.e. when `i - offset` falls
outside `[0, |bars|)`; warm-up indices surface as `NaN` (`some none`)
instead, as the counterexample shows. -/
theorem C1_amended_null_iff (data : List OHLCV)
    (settings : BollingerBandsSettings) (i : ℕ) (p : BollingerBandsResult)
    (hpt : (computeBollingerBands data settings).get? i = some p) :
    (p.basis = none ↔ ((i : ℤ) - settings.offset < 0 ∨
      (data.length : ℤ) ≤ (i : ℤ) - settings.offset)) ∧
    (p.upper = none ↔ ((i : ℤ) - settings.offset < 0 ∨
      (data.length : ℤ) ≤ (i : ℤ) - settings.offset)) ∧
    (p.lower = none ↔ ((i : ℤ) - settings.offset < 0 ∨
      (data.length : ℤ) ≤ (i : ℤ) - settings.offset)) := by
  have hi : i < data.length := by
    obtain ⟨h, -⟩ := List.get?_eq_some.mp hpt
    rwa [computeBollingerBands_length] at h
  obtain ⟨c, hc⟩ : ∃ c, data.get? i = some c := ⟨_, List.get?_eq_get hi⟩
  have hrec := computeBollingerBands_get settings hc
  rw [hpt] at hrec
  have hpeq := Option.some.inj hrec
  subst hpeq
  refine ⟨?_, ?_, ?_⟩
  · show ((applyOffset (basisSeries data settings)
        settings.offset).get? i).getD none = none ↔ _
    rw [applyOffset_get _ _ _ (by rw [basisSeries_length]; exact hi),
      Option.getD_some, jsGet_none_iff, basisSeries_length]
  · show ((applyOffset (upperSeries data settings)
        settings.offset).get? i).getD none = none ↔ _
    rw [applyOffset_get _ _ _ (by rw [upperSeries_length]; exact hi),
      Option.getD_some, jsGet_none_iff, upperSeries_length]
  · show ((applyOffset (lowerSeries data settings)
        settings.offset).get? i).getD none = none ↔ _
    rw [applyOffset_get _ _ _ (by rw [lowerSeries_length]; exact hi),
      Option.getD_some, jsGet_none_iff, lowerSeries_length]

theorem C1_amended_null_iff_witness :
    ((⟨"t1", some none, some none, some none⟩ : BollingerBandsResult).basis
        = none ↔ ((0 : ℤ) - 0 < 0 ∨
      ((([⟨"t1", 100, 100, 100, 100, 0⟩, ⟨"t2", 100, 100, 100, 100, 0⟩] :
        List OHLCV).length : ℤ) ≤ (0 : ℤ) - 0))) :=
  (C1_amended_null_iff
    [⟨"t1", 100, 100, 100, 100, 0⟩, ⟨"t2", 100, 100, 100, 100, 0⟩]
    ⟨2, "close", 2, 0⟩ 0 ⟨"t1", some none, some none, some none⟩
    (warmup_point (show ([⟨"t1", 100, 100, 100, 100, 0⟩,
        ⟨"t2", 100, 100, 100, 100, 0⟩] : List OHLCV).get? 0 =
      some ⟨"t1", 100, 100, 100, 100, 0⟩ from rfl) (by norm_num) rfl)).1

/-- C5: for every non-empty bar sequence and settings, the computed series
has the same length as the input, and the point at every index carries the
timestamp of the input bar at that index, whatever the offset. -/
theorem C5_alignment (data : List OHLCV) (settings : BollingerBandsSettings)
    (hne : data ≠ []) :
    (computeBollingerBands data settings).length = data.length ∧
    ∀ i : ℕ, ((computeBollingerBands data settings).get? i).map
        (fun p => p.timestamp) = (data.get? i).map (fun c => c.timestamp) := by
  refine ⟨computeBollingerBands_length data settings, fun i => ?_⟩
  by_cases hi : i < data.length
  · obtain ⟨c, hc⟩ : ∃ c, data.get? i = some c :=
      ⟨_, List.get?_eq_get hi⟩
    rw [computeBollingerBands_get settings hc, hc]
    rfl
  · have h1 : data.get? i = none := List.get?_eq_none.mpr (by omega)
    have h2 : (computeBollingerBands data settings).get? i = none :=
      List.get?_eq_none.mpr (by rw [computeBollingerBands_length]; omega)
    rw [h1, h2]
    rfl

theorem C5_alignment_witness :
    let b : OHLCV := ⟨"t", 10, 12, 8, 11, 1⟩
    ([b] : List OHLCV) ≠ [] ∧
    ((computeBollingerBands [b] ⟨20, "close", 2, 0⟩).length = [b].length ∧
     ∀ i : ℕ, ((computeBollingerBands [b] ⟨20, "close", 2, 0⟩).get? i).map
        (fun p => p.timestamp) = ([b].get? i).map (fun c => c.timestamp)) :=
  ⟨by simp, C5_alignment _ _ (by simp)⟩

/-- C6 (counterexample): with a single bar and `length = -1` (offset `0`),
the output point is not undefined: its `basis` is the real value `0`,
because the empty accumulation loop yields `0 / (-1) = -0`, a defined
number, refuting the claim that every output point is undefined for
negative `length`. -/
theorem C6_negative_length_counterexample :
    ((computeBollingerBands [⟨"t1", 100, 100, 100, 100, 0⟩]
        ⟨-1, "close", 2, 0⟩).get? 0).map (fun p => p.basis) =
      some (some (some 0)) := by
  rw [neg_point (show ([⟨"t1", 100, 100, 100, 100, 0⟩] :
      List OHLCV).get? 0 = some ⟨"t1", 100, 100, 100, 100, 0⟩ from rfl)
    (by norm_num) rfl]
  rfl

/-- C6 (amended): `compute` is total on degenerate input: empty bars give
an empty series; with `length = 0` every output point carries no real
value in `basis`/`upper`/`lower` (the slots are `NaN` or `null`); but
with negative `length` (and offset `0`) every output point is the
*defined* value `0` in all three fields, not undefined. -/
theorem C6_degenerate_inputs (settings : BollingerBandsSettings) :
    computeBollingerBands [] settings = [] ∧
    ∀ (data : List OHLCV) (i : ℕ) (p : BollingerBandsResult),
      (computeBollingerBands data settings).get? i = some p →
      (settings.length = 0 →
        (∀ x : ℝ, p.basis ≠ some (some x)) ∧
        (∀ x : ℝ, p.upper ≠ some (some x)) ∧
        (∀ x : ℝ, p.lower ≠ some (some x))) ∧
      (settings.length < 0 → settings.offset = 0 →
        p.basis = some (some 0) ∧ p.upper = some (some 0) ∧
        p.lower = some (some 0)) := by
  refine ⟨rfl, fun data i p hpt => ?_⟩
  have hi : i < data.length := by
    obtain ⟨h, -⟩ := List.get?_eq_some.mp hpt
    rwa [computeBollingerBands_length] at h
  obtain ⟨c, hc⟩ : ∃ c, data.get? i = some c := ⟨_, List.get?_eq_get hi⟩
  constructor
  · intro h0
    have hrec := computeBollingerBands_get settings hc
    rw [hpt] at hrec
    have hpeq := Option.some.inj hrec
    subst hpeq
    have hnor : ∀ (X : List (Option ℝ)), X.length = data.length →
        (∀ j : ℕ, j < data.length → X.get? j = some none) →
        ∀ x : ℝ, ((applyOffset X settings.offset).get? i).getD none ≠
          some (some x) := by
      intro X hXlen hXnan x hx
      rw [applyOffset_get _ _ _ (by omega), Option.getD_some, jsGet] at hx
      by_cases hsgn : 0 ≤ (i : ℤ) - settings.offset
      · rw [if_pos hsgn] at hx
        obtain ⟨hj, -⟩ := List.get?_eq_some.mp hx
        rw [hXnan _ (by omega)] at hx
        exact Option.noConfusion (Option.some.inj hx)
      · rw [if_neg hsgn] at hx
        exact Option.noConfusion hx
    have hbz : ∀ j : ℕ, j < data.length →
        (basisSeries data settings).get? j = some none := by
      intro j hj
      rw [basisSeries, h0]
      exact calculateSMA_get_zero (by rwa [getSourceValues_length])
    refine ⟨hnor _ (basisSeries_length data settings) hbz, ?_, ?_⟩
    · refine hnor _ (upperSeries_length data settings) fun j hj => ?_
      rw [upperSeries_get hj, hbz j hj]; rfl
    · refine hnor _ (lowerSeries_length data settings) fun j hj => ?_
      rw [lowerSeries_get hj, hbz j hj]; rfl
  · intro hneg hoff
    have hrec := neg_point hc hneg hoff
    rw [hpt] at hrec
    have hpeq := Option.some.inj hrec
    subst hpeq
    exact ⟨rfl, rfl, rfl⟩

theorem C6_degenerate_inputs_witness :
    computeBollingerBands []
      (⟨0, "close", 2, 0⟩ : BollingerBandsSettings) = [] ∧
    (∀ x : ℝ, (⟨"t1", some none, some none, some none⟩ :
      BollingerBandsResult).basis ≠ some (some x)) ∧
    (⟨"t1", some (some 0), some (some 0), some (some 0)⟩ :
      BollingerBandsResult).basis = some (some 0) :=
  ⟨(C6_degenerate_inputs ⟨0, "close", 2, 0⟩).1,
    (((C6_degenerate_inputs ⟨0, "close", 2, 0⟩).2
      [⟨"t1", 100, 100, 100, 100, 0⟩] 0
      ⟨"t1", some none, some none, some none⟩
      (zero_point (show ([⟨"t1", 100, 100, 100, 100, 0⟩] :
          List OHLCV).get? 0 = some ⟨"t1", 100, 100, 100, 100, 0⟩ from rfl)
        rfl rfl)).1 rfl).1,
    (((C6_degenerate_inputs ⟨-1, "close", 2, 0⟩).2
      [⟨"t1", 100, 100, 100, 100, 0⟩] 0
      ⟨"t1", some (some 0), some (some 0), some (some 0)⟩
      (neg_point (show ([⟨"t1", 100, 100, 100, 100, 0⟩] :
          List OHLCV).get? 0 = some ⟨"t1", 100, 100, 100, 100, 0⟩ from rfl)
        (by norm_num) rfl)).2 (by norm_num) rfl).1⟩

/-- C7: at every output index where `basis`, `upper` and `lower` all carry
real values, the bands are symmetric about the basis:
`upper - basis = basis - lower`, and both equal the standard-deviation
multiplier times the dispersion value belonging to that output slot
(exactly, in the real-number semantics). -/
theorem C7_band_symmetry (data : List OHLCV)
    (settings : BollingerBandsSettings) (i : ℕ) (p : BollingerBandsResult)
    (b u l : ℝ)
    (hpt : (computeBollingerBands data settings).get? i = some p)
    (hb : p.basis = some (some b)) (hu : p.upper = some (some u))
    (hl : p.lower = some (some l)) :
    u - b = b - l ∧
    ∃ s : ℝ, ((applyOffset (stdDevSeries data settings)
        settings.offset).get? i).getD none = some (some s) ∧
      u - b = settings.stddev * s ∧ b - l = settings.stddev * s := by
  have hi : i < data.length := by
    obtain ⟨h, -⟩ := List.get?_eq_some.mp hpt
    rwa [computeBollingerBands_length] at h
  obtain ⟨c, hc⟩ : ∃ c, data.get? i = some c := ⟨_, List.get?_eq_get hi⟩
  have hrec := computeBollingerBands_get settings hc
  rw [hpt] at hrec
  have hpeq := Option.some.inj hrec
  have hpb : p.basis = ((applyOffset (basisSeries data settings)
      settings.offset).get? i).getD none := by rw [hpeq]
  have hpu : p.upper = ((applyOffset (upperSeries data settings)
      settings.offset).get? i).getD none := by rw [hpeq]
  have hpl : p.lower = ((applyOffset (lowerSeries data settings)
      settings.offset).get? i).getD none := by rw [hpeq]
  rw [hpb, applyOffset_get _ _ _ (by rw [basisSeries_length]; exact hi),
    Option.getD_some, jsGet] at hb
  rw [hpu, applyOffset_get _ _ _ (by rw [upperSeries_length]; exact hi),
    Option.getD_some, jsGet] at hu
  rw [hpl, applyOffset_get _ _ _ (by rw [lowerSeries_length]; exact hi),
    Option.getD_some, jsGet] at hl
  by_cases hsgn : 0 ≤ (i : ℤ) - settings.offset
  · rw [if_pos hsgn] at hb hu hl
    have hj' : ((i : ℤ) - settings.offset).toNat < data.length := by
      obtain ⟨h, -⟩ := List.get?_eq_some.mp hb
      rwa [basisSeries_length] at h
    rw [upperSeries_get hj'] at hu
    rw [lowerSeries_get hj'] at hl
    have hu' := Option.some.inj hu
    have hl' := Option.some.inj hl
    rw [hb] at hu' hl'
    have hu'' : ((stdDevSeries data settings).get?
        (((i : ℤ) - settings.offset).toNat)).join.map
        (fun s => b + settings.stddev * s) = some u := hu'
    have hl'' : ((stdDevSeries data settings).get?
        (((i : ℤ) - settings.offset).toNat)).join.map
        (fun s => b - settings.stddev * s) = some l := hl'
    rcases Option.map_eq_some'.mp hu'' with ⟨s, hsj, hval⟩
    rcases Option.map_eq_some'.mp hl'' with ⟨s2, hsj2, hval2⟩
    have hs2 : s2 = s := by
      rw [hsj] at hsj2
      exact (Option.some.inj hsj2).symm
    rw [hs2] at hval2
    refine ⟨by rw [← hval, ← hval2]; ring, s, ?_,
      by rw [← hval]; ring, by rw [← hval2]; ring⟩
    rw [applyOffset_get _ _ _ (by rw [stdDevSeries_length]; exact hi),
      Option.getD_some, jsGet, if_pos hsgn]
    exact Option.join_eq_some.mp hsj
  · rw [if_neg hsgn] at hb
    exact Option.noConfusion hb

theorem C7_band_symmetry_witness :
    (100 : ℝ) - 100 = 100 - 100 ∧
    ∃ s : ℝ, ((applyOffset (stdDevSeries
        [⟨"t1", 100, 100, 100, 100, 0⟩, ⟨"t2", 100, 100, 100, 100, 0⟩]
        ⟨2, "close", 2, 0⟩) 0).get? 1).getD none = some (some s) ∧
      (100 : ℝ) - 100 = 2 * s ∧ (100 : ℝ) - 100 = 2 * s :=
  C7_band_symmetry
    [⟨"t1", 100, 100, 100, 100, 0⟩, ⟨"t2", 100, 100, 100, 100, 0⟩]
    ⟨2, "close", 2, 0⟩ 1
    ⟨"t2", some (some 100), some (some 100), some (some 100)⟩ 100 100 100
    (const_point (show ([⟨"t1", 100, 100, 100, 100, 0⟩,
        ⟨"t2", 100, 100, 100, 100, 0⟩] : List OHLCV).get? 1 =
      some ⟨"t2", 100, 100, 100, 100, 0⟩ from rfl)
      (by intro v hv
          rcases List.mem_map.mp hv with ⟨bb, hbb, rfl⟩
          rcases (by simpa using hbb :
            bb = (⟨"t1", 100, 100, 100, 100, 0⟩ : OHLCV) ∨
            bb = (⟨"t2", 100, 100, 100, 100, 0⟩ : OHLCV)) with rfl | rfl <;>
            rfl)
      (by norm_num) (by norm_num) rfl) rfl rfl rfl

/-- C10 (implicit): at every output index the three fields are defined
together or undefined together: `basis` carries a real value exactly when
`upper` does, and exactly when `lower` does. -/
theorem C10_fields_defined_together (data : List OHLCV)
    (settings : BollingerBandsSettings) (i : ℕ) (p : BollingerBandsResult)
    (hpt : (computeBollingerBands data settings).get? i = some p) :
    ((∃ x : ℝ, p.basis = some (some x)) ↔
      (∃ x : ℝ, p.upper = some (some x))) ∧
    ((∃ x : ℝ, p.basis = some (some x)) ↔
      (∃ x : ℝ, p.lower = some (some x))) := by
  have hi : i < data.length := by
    obtain ⟨h, -⟩ := List.get?_eq_some.mp hpt
    rwa [computeBollingerBands_length] at h
  obtain ⟨c, hc⟩ : ∃ c, data.get? i = some c := ⟨_, List.get?_eq_get hi⟩
  have hrec := computeBollingerBands_get settings hc
  rw [hpt] at hrec
  have hpeq := Option.some.inj hrec
  have hpb : p.basis = ((applyOffset (basisSeries data settings)
      settings.offset).get? i).getD none := by rw [hpeq]
  have hpu : p.upper = ((applyOffset (upperSeries data settings)
      settings.offset).get? i).getD none := by rw [hpeq]
  have hpl : p.lower = ((applyOffset (lowerSeries data settings)
      settings.offset).get? i).getD none := by rw [hpeq]
  rw [hpb, applyOffset_get _ _ _ (by rw [basisSeries_length]; exact hi),
    Option.getD_some, jsGet]
  rw [hpu, applyOffset_get _ _ _ (by rw [upperSeries_length]; exact hi),
    Option.getD_some, jsGet]
  rw [hpl, applyOffset_get _ _ _ (by rw [lowerSeries_length]; exact hi),
    Option.getD_some, jsGet]
  by_cases hsgn : 0 ≤ (i : ℤ) - settings.offset
  · rw [if_pos hsgn, if_pos hsgn, if_pos hsgn]
    by_cases hj' : ((i : ℤ) - settings.offset).toNat < data.length
    · constructor
      · constructor
        · rintro ⟨x, hx⟩
          obtain ⟨s, hs⟩ := stdDevSeries_defined_of_basis hx
          exact ⟨x + settings.stddev * s, by
            rw [upperSeries_get hj', hx, hs]; rfl⟩
        · rintro ⟨x, hx⟩
          rw [upperSeries_get hj'] at hx
          rcases Option.bind_eq_some.mp (Option.some.inj hx) with
            ⟨bb, hbb, -⟩
          exact ⟨bb, Option.join_eq_some.mp hbb⟩
      · constructor
        · rintro ⟨x, hx⟩
          obtain ⟨s, hs⟩ := stdDevSeries_defined_of_basis hx
          exact ⟨x - settings.stddev * s, by
            rw [lowerSeries_get hj', hx, hs]; rfl⟩
        · rintro ⟨x, hx⟩
          rw [lowerSeries_get hj'] at hx
          rcases Option.bind_eq_some.mp (Option.some.inj hx) with
            ⟨bb, hbb, -⟩
          exact ⟨bb, Option.join_eq_some.mp hbb⟩
    · rw [List.get?_eq_none.mpr (by rw [basisSeries_length]; omega),
        List.get?_eq_none.mpr (by rw [upperSeries_length]; omega),
        List.get?_eq_none.mpr (by rw [lowerSeries_length]; omega)]
      simp
  · rw [if_neg hsgn, if_neg hsgn, if_neg hsgn]
    simp

theorem C10_fields_defined_together_witness :
    ((∃ x : ℝ, (⟨"t2", some (some 100), some (some 100), some (some 100)⟩ :
        BollingerBandsResult).basis = some (some x)) ↔
      (∃ x : ℝ, (⟨"t2", some (some 100), some (some 100), some (some 100)⟩ :
        BollingerBandsResult).upper = some (some x))) ∧
    ((∃ x : ℝ, (⟨"t2", some (some 100), some (some 100), some (some 100)⟩ :
        BollingerBandsResult).basis = some (some x)) ↔
      (∃ x : ℝ, (⟨"t2", some (some 100), some (some 100), some (some 100)⟩ :
        BollingerBandsResult).lower = some (some x))) :=
  C10_fields_defined_together
    [⟨"t1", 100, 100, 100, 100, 0⟩, ⟨"t2", 100, 100, 100, 100, 0⟩]
    ⟨2, "close", 2, 0⟩ 1
    ⟨"t2", some (some 100), some (some 100), some (some 100)⟩
    (const_point (show ([⟨"t1", 100, 100, 100, 100, 0⟩,
        ⟨"t2", 100, 100, 100, 100, 0⟩] : List OHLCV).get? 1 =
      some ⟨"t2", 100, 100, 100, 100, 0⟩ from rfl)
      (by intro v hv
          rcases List.mem_map.mp hv with ⟨bb, hbb, rfl⟩
          rcases (by simpa using hbb :
            bb = (⟨"t1", 100, 100, 100, 100, 0⟩ : OHLCV) ∨
            bb = (⟨"t2", 100, 100, 100, 100, 0⟩ : OHLCV)) with rfl | rfl <;>
            rfl)
      (by norm_num) (by norm_num) rfl)

end
